import Mathlib

/-!
Verification of the home-energy-optimizer VPP core (battery fleet dispatch,
FCAS frequency response, and the autonomous simulation loop) against its
natural-language specification.

The Python source (backend/battery_fleet.py, backend/vpp_aggregator.py,
backend/autonomous_vpp.py, backend/api.py) is embedded shallowly:

* Python floats are embedded as rationals (ℚ); every numeric constant of the
  source (0.8, 5.0, 2.0, 0.5, 0.08, 0.9, 3.5, 0.02, ...) is exactly
  representable, so the rational embedding computes the same case analysis
  the source performs, without binary-float rounding noise.
* Python's round(x, n) is embedded as scaling, rounding to an integer and
  unscaling. Python rounds half-to-even; the embedding rounds half-up. No
  property proved below evaluates round at a half-way tie, so the two agree
  on everything used here.
* list.sort(key=..., reverse=True) is a stable descending sort; it is
  embedded as List.insertionSort with the corresponding total preorder,
  which is also stable, and stable sorts of the same list under the same
  key agree elementwise.
* randomness (solar/consumption noise, the loop's random draws) is passed
  in explicitly as oracle arguments.
* in-place mutation of the battery objects becomes explicit state passing:
  each operation takes the fleet (a List BatterySystem) and returns the
  updated fleet. Database writes become returned event records.
-/

/-- One home battery system (dataclass BatterySystem of battery_fleet.py).
The latitude/longitude and last_updated fields are display-only and carry no
behavior; they are omitted from the embedding. -/
structure BatterySystem where
  id : Nat
  location : String
  battery_capacity_kwh : ℚ
  solar_capacity_kw : ℚ
  home_size : String
  panel_orientation : String
  current_battery_state_kwh : ℚ
  is_available : Bool
deriving DecidableEq

/-- One entry of the selection returned by find_batteries_for_dispatch. -/
structure SelectedBattery where
  battery_id : Nat
  location : String
  power_kw : ℚ
deriving DecidableEq

/-- The dict returned by BatteryFleet.find_batteries_for_dispatch. -/
structure DispatchSelection where
  batteries_dispatched : Nat
  total_power_kw : ℚ
  target_power_kw : ℚ
  fulfilled : Bool
  batteries : List SelectedBattery
deriving DecidableEq

/-- The dict returned by BatteryFleet.get_fleet_status (timestamp omitted). -/
structure FleetStatus where
  total_batteries : Nat
  active_batteries : Nat
  offline_batteries : Nat
  total_capacity_kwh : ℚ
  available_energy_kwh : ℚ
  dispatchable_power_kw : ℚ
  fleet_utilization_pct : ℚ
deriving DecidableEq

/-- The row inserted into vpp_dispatch_events by VPPAggregator.dispatch_batteries
(timestamp omitted). -/
structure DispatchEvent where
  event_type : String
  batteries_dispatched : Nat
  total_power_kw : ℚ
  duration_minutes : Nat
  revenue : ℚ
  reason : String
deriving DecidableEq

/-- Everything VPPAggregator.dispatch_batteries produces: the mutated fleet,
the result dict handed back to the caller, the revenue, and the persisted
dispatch event. -/
structure DispatchOutcome where
  fleet : List BatterySystem
  result : DispatchSelection
  revenue : ℚ
  event : DispatchEvent
deriving DecidableEq

/-- The response_type / action field of an FCAS event. -/
inductive FCASAction where
  | noAction
  | discharge
  | charge
deriving DecidableEq

/-- The dict returned by VPPAggregator.simulate_fcas_event. -/
structure FCASResult where
  action : FCASAction
  frequency_hz : ℚ
  deviation_hz : ℚ
  power_kw : ℚ
  batteries_dispatched : Nat
  response_time_seconds : ℚ
  revenue : ℚ
  reason : String
deriving DecidableEq

/-- Embedding of Python round(x, 2) over ℚ (see the tie-behavior note in the
file header). -/
def round2 (x : ℚ) : ℚ := (⌊x * 100 + 1/2⌋ : ℚ) / 100

/-- Embedding of Python round(x, 3) over ℚ. -/
def round3 (x : ℚ) : ℚ := (⌊x * 1000 + 1/2⌋ : ℚ) / 1000

/-- Embedding of Python round(x, 1) over ℚ. -/
def round1 (x : ℚ) : ℚ := (⌊x * 10 + 1/2⌋ : ℚ) / 10

/-- Tests whether the second character list occurs at the head of the first
(helper for the embedding of Python's substring operator). -/
def matchesAt : List Char → List Char → Bool
  | [], _ => true
  | _ :: _, [] => false
  | a :: as, b :: bs => a = b && matchesAt as bs

/-- Tests whether needle occurs as a contiguous run inside hay. -/
def containsSub (hay needle : List Char) : Bool :=
  match hay with
  | [] => needle.isEmpty
  | _ :: t => matchesAt needle hay || containsSub t needle

/-- Embedding of Python's case-sensitive substring test (sub in s). -/
def strContains (s sub : String) : Bool := containsSub s.data sub.data

/-- Power one battery can contribute to a dispatch:
min(current_battery_state_kwh * 0.8, 5.0), the per-unit 5 kW discharge cap
(battery_fleet.py lines 143 and 88). -/
def available_power (b : BatterySystem) : ℚ :=
  min (b.current_battery_state_kwh * (8/10)) 5

/-- Selection filter of find_batteries_for_dispatch and of the dispatchable
power aggregate: is_available and current_battery_state_kwh > 2.0 (the 2 kWh
reserve). -/
def dispatch_eligible (b : BatterySystem) : Bool :=
  b.is_available && decide (2 < b.current_battery_state_kwh)

/-- The greedy accumulation loop of find_batteries_for_dispatch: walk the
sorted candidates, stop as soon as the accumulated total reaches the
requirement, otherwise select the battery at its full available power. -/
def greedySelect (required_power_kw : ℚ) :
    List BatterySystem → ℚ → List SelectedBattery × ℚ
  | [], total => ([], total)
  | b :: rest, total =>
    if required_power_kw ≤ total then ([], total)
    else
      let p := available_power b
      let r := greedySelect required_power_kw rest (total + p)
      (⟨b.id, b.location, p⟩ :: r.1, r.2)

/-- BatteryFleet.find_batteries_for_dispatch: filter the available batteries
holding more than the 2 kWh reserve, sort them descending by state of charge
(stable, like Python's sort with reverse=True), then greedily accumulate
power until the requirement is met. -/
def find_batteries_for_dispatch (fleet : List BatterySystem)
    (required_power_kw : ℚ) : DispatchSelection :=
  let available := (fleet.filter dispatch_eligible).insertionSort
    (fun a b => b.current_battery_state_kwh ≤ a.current_battery_state_kwh)
  let r := greedySelect required_power_kw available 0
  { batteries_dispatched := r.1.length
    total_power_kw := round2 r.2
    target_power_kw := required_power_kw
    fulfilled := decide (required_power_kw ≤ r.2)
    batteries := r.1 }

/-- Sum of battery_capacity_kwh over the fleet (get_fleet_status). -/
def total_capacity (fleet : List BatterySystem) : ℚ :=
  (fleet.map fun b => b.battery_capacity_kwh).sum

/-- Fleet-wide available energy: sum of current_battery_state_kwh over the
available batteries (get_fleet_status, available_energy_kwh). -/
def available_energy (fleet : List BatterySystem) : ℚ :=
  ((fleet.filter fun b => b.is_available).map
    fun b => b.current_battery_state_kwh).sum

/-- Fleet-wide dispatchable power: sum of available_power over available
batteries above the 2 kWh reserve (get_fleet_status, dispatchable_power_kw). -/
def dispatchable_power (fleet : List BatterySystem) : ℚ :=
  ((fleet.filter dispatch_eligible).map available_power).sum

/-- BatteryFleet.get_fleet_status. The fleet_utilization_pct entry divides by
total capacity with no guard; on a fleet of total capacity zero the Python
code raises ZeroDivisionError, embedded here as the none branch. -/
def get_fleet_status (fleet : List BatterySystem) : Option FleetStatus :=
  let t := total_capacity fleet
  if t = 0 then none
  else some
    { total_batteries := fleet.length
      active_batteries := (fleet.filter fun b => b.is_available).length
      offline_batteries := fleet.length - (fleet.filter fun b => b.is_available).length
      total_capacity_kwh := round2 t
      available_energy_kwh := round2 (available_energy fleet)
      dispatchable_power_kw := round2 (dispatchable_power fleet)
      fleet_utilization_pct := round1 (available_energy fleet / t * 100) }

/-- BatteryFleet.simulate_hour: each available battery gains solar output and
loses consumption for one hour, and the new state is clamped to [0, capacity].
The solar and consumption terms are randomized (cloud noise, time-of-day load
multipliers); their difference is abstracted as the oracle argument net. -/
def simulate_hour (net : BatterySystem → ℚ) (fleet : List BatterySystem) :
    List BatterySystem :=
  fleet.map fun b =>
    if b.is_available then
      { b with current_battery_state_kwh := max 0 (min b.battery_capacity_kwh (b.current_battery_state_kwh + net b)) }
    else b

/-- The per-battery energy debit of VPPAggregator.dispatch_batteries:
current state decreases by the discharged energy, floored at 0. -/
def debit_battery (energy_discharged : ℚ) (b : BatterySystem) : BatterySystem :=
  { b with current_battery_state_kwh := max 0 (b.current_battery_state_kwh - energy_discharged) }

/-- Embedding of next((b for b in batteries if b.id == battery_id), None)
followed by an in-place mutation: apply f to the first battery with the given
id, leaving the fleet unchanged when the id is absent. -/
def update_first_by_id (battery_id : Nat) (f : BatterySystem → BatterySystem) :
    List BatterySystem → List BatterySystem
  | [] => []
  | b :: rest =>
    if b.id = battery_id then f b :: rest
    else b :: update_first_by_id battery_id f rest

/-- The state-mutation loop of dispatch_batteries: for each selected battery,
debit power_kw * 0.5 kWh (the 30-minute dispatch window) from the battery with
that id. -/
def apply_debits : List SelectedBattery → List BatterySystem → List BatterySystem
  | [], fleet => fleet
  | info :: rest, fleet =>
    apply_debits rest
      (update_first_by_id info.battery_id
        (debit_battery (info.power_kw * (1/2))) fleet)

/-- The settlement rate selection of _calculate_dispatch_revenue: keyed by
case-sensitive substring tests on the reason. -/
def rate_per_mwh (reason : String) : ℚ :=
  if strContains reason ("FCAS") = true then 80
  else if strContains reason ("arbitrage") = true then 250
  else 100

/-- VPPAggregator._calculate_dispatch_revenue: energy for the 30-minute window
in MWh times the rate, rounded to cents. -/
def calculate_dispatch_revenue (power_kw : ℚ) (reason : String) : ℚ :=
  round2 ((power_kw / 1000) * (1/2) * rate_per_mwh reason)

/-- VPPAggregator.dispatch_batteries: select batteries, debit each selected
battery by power_kw * 0.5 kWh, compute revenue from the (rounded) total power,
and record a dispatch event. No input validation is performed. -/
def dispatch_batteries (fleet : List BatterySystem) (required_power_kw : ℚ)
    (reason : String) : DispatchOutcome :=
  let dispatch_result := find_batteries_for_dispatch fleet required_power_kw
  let fleet' := apply_debits dispatch_result.batteries fleet
  let revenue := calculate_dispatch_revenue dispatch_result.total_power_kw reason
  { fleet := fleet'
    result := dispatch_result
    revenue := revenue
    event :=
      { event_type := if 0 < required_power_kw then ("discharge") else ("charge")
        batteries_dispatched := dispatch_result.batteries_dispatched
        total_power_kw := dispatch_result.total_power_kw
        duration_minutes := 30
        revenue := revenue
        reason := reason } }

/-- Filter of the FCAS charge path: available and below 90% of capacity. -/
def fcas_charge_eligible (b : BatterySystem) : Bool :=
  b.is_available && decide (b.current_battery_state_kwh < b.battery_capacity_kwh * (9/10))

/-- The charging loop of the FCAS high-frequency path: walk the fleet in order
(Python iterates the filtered list, whose order is fleet order), charging up
to 50 eligible batteries by min(required/1000, 2.0) kWh each, accumulating
charge * 2 kW-equivalents, and stopping once the accumulated total reaches the
required power. Returns the new fleet, the number of batteries used, and the
accumulated total. -/
def fcas_charge_loop (required_power : ℚ) :
    List BatterySystem → Nat → ℚ → List BatterySystem × Nat × ℚ
  | [], _, total_charged => ([], 0, total_charged)
  | b :: rest, limit, total_charged =>
    if fcas_charge_eligible b = true then
      if 0 < limit ∧ total_charged < required_power then
        let charge_amount := min (required_power / 1000) 2
        let b' := { b with current_battery_state_kwh := min b.battery_capacity_kwh (b.current_battery_state_kwh + charge_amount) }
        let r := fcas_charge_loop required_power rest (limit - 1)
          (total_charged + charge_amount * 2)
        (b' :: r.1, r.2.1 + 1, r.2.2)
      else (b :: rest, 0, total_charged)
    else
      let r := fcas_charge_loop required_power rest limit total_charged
      (b :: r.1, r.2.1, r.2.2)

/-- VPPAggregator.simulate_fcas_event: dead band |50 − f| < 0.08 is a no-op;
a low frequency (deviation > 0.08) discharges through dispatch_batteries with
required power |deviation| * 1000; otherwise the charge path absorbs energy
into up to 50 batteries. Returns the mutated fleet and the response dict. -/
def simulate_fcas_event (fleet : List BatterySystem) (frequency_hz : ℚ) :
    List BatterySystem × FCASResult :=
  let deviation := 50 - frequency_hz
  if |deviation| < 8/100 then
    (fleet,
      { action := FCASAction.noAction
        frequency_hz := frequency_hz
        deviation_hz := round3 deviation
        power_kw := 0
        batteries_dispatched := 0
        response_time_seconds := 0
        revenue := 0
        reason := "Frequency within acceptable range" })
  else if 8/100 < deviation then
    let required_power := |deviation| * 1000
    let o := dispatch_batteries fleet required_power ("FCAS frequency low")
    (o.fleet,
      { action := FCASAction.discharge
        frequency_hz := frequency_hz
        deviation_hz := round3 deviation
        power_kw := o.result.total_power_kw
        batteries_dispatched := o.result.batteries_dispatched
        response_time_seconds := 7/2
        revenue := o.revenue
        reason := "FCAS response to frequency discharge" })
  else
    let required_power := |deviation| * 1000
    let r := fcas_charge_loop required_power fleet 50 0
    (r.1,
      { action := FCASAction.charge
        frequency_hz := frequency_hz
        deviation_hz := round3 deviation
        power_kw := r.2.2
        batteries_dispatched := r.2.1
        response_time_seconds := 7/2
        revenue := calculate_dispatch_revenue r.2.2 ("FCAS frequency high")
        reason := "FCAS response to frequency charge" })

/-- The reason string the autonomous peak-discharge arbitrage path passes to
dispatch_batteries (autonomous_vpp.py line 170, after f-string formatting). -/
def arbitrage_reason : String := "Arbitrage: Peak discharge ($0.35/kWh)"

/-- The peak-discharge branch of AutonomousVPP._check_arbitrage_opportunity:
when the simulated hour is in [18, 21) and the fleet's dispatchable power
exceeds 100 kW, dispatch that power with the arbitrage reason string. The
cooldown gate (check every 300/speed real seconds) is timing-only and is
modelled by the caller having fired the check. -/
def check_arbitrage_discharge (hour : Nat) (fleet : List BatterySystem) :
    Option DispatchOutcome :=
  match get_fleet_status fleet with
  | none => none
  | some st =>
    if 18 ≤ hour ∧ hour < 21 ∧ 100 < st.dispatchable_power_kw then
      some (dispatch_batteries fleet st.dispatchable_power_kw arbitrage_reason)
    else none

/-- Hour-of-day of a simulated clock measured in seconds. -/
def hour_of (t : Nat) : Nat := t / 3600 % 24

/-- The timing skeleton of one tick of AutonomousVPP._simulation_loop:
simulated time advances by 5 * speed_multiplier seconds, and the fleet's
hourly physics update simulate_hour runs in this tick exactly when the tick's
uniform random draw is below 0.02 * (speed_multiplier / 10) (the line
"if random.random() < 0.02 * (self.speed_multiplier / 10)"). The pair returned
is (new simulated time, number of simulate_hour invocations this tick). -/
def simulation_tick (speed_multiplier : Nat) (draw : ℚ) (t : Nat) : Nat × Nat :=
  (t + 5 * speed_multiplier,
   if draw < (2/100) * ((speed_multiplier : ℚ) / 10) then 1 else 0)

/-- One fleet-mutating operation of the aggregator, for stating the
state-of-charge invariant over arbitrary operation sequences. -/
inductive FleetOp where
  | dispatchReq (required_power_kw : ℚ) (reason : String)
  | hourly (net : BatterySystem → ℚ)
  | fcas (frequency_hz : ℚ)

/-- Applies one operation to the fleet, keeping only the mutated fleet. -/
def apply_op (op : FleetOp) (fleet : List BatterySystem) : List BatterySystem :=
  match op with
  | FleetOp.dispatchReq req reason => (dispatch_batteries fleet req reason).fleet
  | FleetOp.hourly net => simulate_hour net fleet
  | FleetOp.fcas freq => (simulate_fcas_event fleet freq).1

/-- Applies a sequence of operations left to right. -/
def apply_ops (ops : List FleetOp) (fleet : List BatterySystem) :
    List BatterySystem :=
  ops.foldl (fun f op => apply_op op f) fleet

/-- The state-of-charge invariant: every battery holds between 0 kWh and its
capacity. -/
def SocInv (fleet : List BatterySystem) : Prop :=
  ∀ b ∈ fleet, 0 ≤ b.current_battery_state_kwh ∧
    b.current_battery_state_kwh ≤ b.battery_capacity_kwh

instance : DecidablePred SocInv := fun fleet =>
  inferInstanceAs (Decidable (∀ b ∈ fleet, _ ∧ _))

/-- Test battery: available, with the given id, state of charge and capacity
(solar size, home size and orientation do not influence the dispatch path). -/
def mkTestBattery (i : Nat) (soc cap : ℚ) : BatterySystem :=
  ⟨i, "Melbourne", cap, 5, "small", "north", soc, true⟩

/-- Scenario A fleet: three 10 kWh batteries at 8, 5 and 1 kWh. -/
def fleetA : List BatterySystem :=
  [mkTestBattery 1 8 10, mkTestBattery 2 5 10, mkTestBattery 3 1 10]

/-- A single battery just above the reserve, at 2.5 kWh. -/
def fleetR : List BatterySystem := [mkTestBattery 1 (5/2) 10]

/-- A single battery at 8 kWh. -/
def fleetD : List BatterySystem := [mkTestBattery 1 8 10]

/-- Twenty-one batteries at 8 kWh each: dispatchable power 21 * 5 = 105 kW,
just above the 100 kW arbitrage threshold. -/
def fleet21 : List BatterySystem :=
  [mkTestBattery 1 8 10, mkTestBattery 2 8 10, mkTestBattery 3 8 10,
   mkTestBattery 4 8 10, mkTestBattery 5 8 10, mkTestBattery 6 8 10,
   mkTestBattery 7 8 10, mkTestBattery 8 8 10, mkTestBattery 9 8 10,
   mkTestBattery 10 8 10, mkTestBattery 11 8 10, mkTestBattery 12 8 10,
   mkTestBattery 13 8 10, mkTestBattery 14 8 10, mkTestBattery 15 8 10,
   mkTestBattery 16 8 10, mkTestBattery 17 8 10, mkTestBattery 18 8 10,
   mkTestBattery 19 8 10, mkTestBattery 20 8 10, mkTestBattery 21 8 10]

/-- A sample operation sequence: a dispatch, an hour of physics with a net
drain of 2 kWh, and an FCAS event at 49.9 Hz. -/
def ops0 : List FleetOp :=
  [FleetOp.dispatchReq 3 ("Grid support"),
   FleetOp.hourly (fun _ => -2),
   FleetOp.fcas (499/10)]

/-! Helper lemmas about the greedy selection. -/

/-- When the requirement is already met (in particular non-positive against a
zero accumulator), the greedy loop selects nothing. -/
theorem greedySelect_of_le {required acc : ℚ} (l : List BatterySystem)
    (h : required ≤ acc) : greedySelect required l acc = ([], acc) := by
  cases l with
  | nil => rfl
  | cons b rest => simp [greedySelect, h]

/-- Every selected entry arises from a member of the candidate list, at that
battery's full available power. -/
theorem mem_greedySelect {required : ℚ} :
    ∀ {l : List BatterySystem} {acc : ℚ} {info : SelectedBattery},
      info ∈ (greedySelect required l acc).1 →
      ∃ b ∈ l, info = ⟨b.id, b.location, available_power b⟩ := by
  intro l
  induction l with
  | nil => intro acc info h; simp [greedySelect] at h
  | cons b rest ih =>
    intro acc info h
    by_cases hc : required ≤ acc
    · rw [greedySelect, if_pos hc] at h
      simp at h
    · rw [greedySelect, if_neg hc] at h
      simp only [List.mem_cons] at h
      rcases h with h | h
      · exact ⟨b, List.mem_cons_self b rest, h⟩
      · obtain ⟨b', hb', rfl⟩ := ih h
        exact ⟨b', List.mem_cons_of_mem b hb', rfl⟩

/-- The accumulator returned by the greedy loop is the initial accumulator
plus the power of everything selected. -/
theorem greedySelect_total {required : ℚ} :
    ∀ (l : List BatterySystem) (acc : ℚ),
      (greedySelect required l acc).2 =
        acc + (((greedySelect required l acc).1.map fun i => i.power_kw)).sum := by
  intro l
  induction l with
  | nil => intro acc; simp [greedySelect]
  | cons b rest ih =>
    intro acc
    by_cases hc : required ≤ acc
    · simp [greedySelect, hc]
    · rw [greedySelect, if_neg hc]
      simp only [List.map_cons, List.sum_cons]
      rw [ih (acc + available_power b)]
      ring

/-- Selected ids come from candidate ids. -/
theorem greedySelect_ids_sub {required : ℚ} {l : List BatterySystem} {acc : ℚ}
    {i : Nat} (h : i ∈ ((greedySelect required l acc).1.map fun x => x.battery_id)) :
    i ∈ l.map fun b => b.id := by
  simp only [List.mem_map] at h
  obtain ⟨info, hinfo, rfl⟩ := h
  obtain ⟨b, hb, rfl⟩ := mem_greedySelect hinfo
  exact List.mem_map.mpr ⟨b, hb, rfl⟩

/-- If the candidate ids are duplicate-free, so are the selected ids. -/
theorem greedySelect_ids_nodup {required : ℚ} :
    ∀ {l : List BatterySystem} {acc : ℚ},
      (l.map fun b => b.id).Nodup →
      ((greedySelect required l acc).1.map fun x => x.battery_id).Nodup := by
  intro l
  induction l with
  | nil => intro acc _; simp [greedySelect]
  | cons b rest ih =>
    intro acc hnd
    simp only [List.map_cons, List.nodup_cons] at hnd
    by_cases hc : required ≤ acc
    · simp [greedySelect, hc]
    · rw [greedySelect, if_neg hc]
      simp only [List.map_cons, List.nodup_cons]
      refine ⟨fun hmem => hnd.1 (greedySelect_ids_sub hmem), ih hnd.2⟩

/-- Unfolds the eligibility filter. -/
theorem dispatch_eligible_iff {b : BatterySystem} :
    dispatch_eligible b = true ↔
      b.is_available = true ∧ 2 < b.current_battery_state_kwh := by
  simp [dispatch_eligible]

/-- Every selected entry of find_batteries_for_dispatch arises from an
available fleet member above the reserve, selected at its full available
power. -/
theorem mem_selection {fleet : List BatterySystem} {required : ℚ}
    {info : SelectedBattery}
    (h : info ∈ (find_batteries_for_dispatch fleet required).batteries) :
    ∃ b ∈ fleet, b.is_available = true ∧ 2 < b.current_battery_state_kwh ∧
      info = ⟨b.id, b.location, available_power b⟩ := by
  unfold find_batteries_for_dispatch at h
  obtain ⟨b, hb, rfl⟩ := mem_greedySelect h
  rw [List.mem_insertionSort] at hb
  rw [List.mem_filter] at hb
  exact ⟨b, hb.1, (dispatch_eligible_iff.mp hb.2).1,
    (dispatch_eligible_iff.mp hb.2).2, rfl⟩

/-- Available power is nonnegative on any battery above the reserve. -/
theorem available_power_nonneg {b : BatterySystem}
    (h : 2 < b.current_battery_state_kwh) : 0 ≤ available_power b := by
  unfold available_power
  have h0 : (0:ℚ) ≤ b.current_battery_state_kwh := by linarith
  refine le_min (by nlinarith) (by norm_num)

/-- The 30-minute energy debit of a selected battery never exceeds its state
of charge: the floor at 0 in the debit is never reached for selected
batteries. -/
theorem debit_le_soc {b : BatterySystem} (h : 2 < b.current_battery_state_kwh) :
    available_power b * (1/2) ≤ b.current_battery_state_kwh := by
  unfold available_power
  have h1 : min (b.current_battery_state_kwh * (8/10)) 5 ≤
      b.current_battery_state_kwh * (8/10) := min_le_left _ _
  nlinarith [h1]

/-! Helper lemmas about the per-battery debit and fleet energy. -/

/-- Available energy splits off the head of the fleet. -/
theorem available_energy_cons (b : BatterySystem) (l : List BatterySystem) :
    available_energy (b :: l) =
      (if b.is_available = true then b.current_battery_state_kwh else 0) +
        available_energy l := by
  by_cases hb : b.is_available = true
  · simp [available_energy, List.filter_cons, hb]
  · simp [available_energy, List.filter_cons, hb]

/-- Members untouched by an update by a different id stay in the fleet. -/
theorem mem_update_first_of_ne {i : Nat} {f : BatterySystem → BatterySystem}
    {b : BatterySystem} :
    ∀ {l : List BatterySystem}, b ∈ l → b.id ≠ i →
      b ∈ update_first_by_id i f l := by
  intro l
  induction l with
  | nil => intro h _; simp at h
  | cons hd tl ih =>
    intro hmem hne
    rw [update_first_by_id]
    by_cases hhd : hd.id = i
    · rw [if_pos hhd]
      rcases List.mem_cons.mp hmem with rfl | htl
      · exact absurd hhd hne
      · exact List.mem_cons_of_mem _ htl
    · rw [if_neg hhd]
      rcases List.mem_cons.mp hmem with rfl | htl
      · exact List.mem_cons_self _ _
      · exact List.mem_cons_of_mem _ (ih htl hne)

/-- Debiting preserves the id of the battery. -/
theorem debit_battery_id (e : ℚ) (b : BatterySystem) :
    (debit_battery e b).id = b.id := rfl

/-- Updating by id with a debit keeps the list of ids unchanged. -/
theorem map_id_update_first (i : Nat) (e : ℚ) :
    ∀ (l : List BatterySystem),
      ((update_first_by_id i (debit_battery e) l).map fun b => b.id) =
        l.map fun b => b.id := by
  intro l
  induction l with
  | nil => rfl
  | cons hd tl ih =>
    rw [update_first_by_id]
    by_cases hhd : hd.id = i
    · rw [if_pos hhd]; simp [debit_battery]
    · rw [if_neg hhd]; simp [ih]

/-- Debiting an available battery that holds at least the debited energy
decreases fleet-wide available energy by exactly that energy, provided the
fleet ids are duplicate-free. -/
theorem available_energy_update_first {i : Nat} {e : ℚ} {b : BatterySystem} :
    ∀ {l : List BatterySystem}, (l.map fun x => x.id).Nodup → b ∈ l →
      b.id = i → b.is_available = true → 0 ≤ e →
      e ≤ b.current_battery_state_kwh →
      available_energy (update_first_by_id i (debit_battery e) l) =
        available_energy l - e := by
  intro l
  induction l with
  | nil => intro _ h; simp at h
  | cons hd tl ih =>
    intro hnd hmem hid havail he0 hle
    simp only [List.map_cons, List.nodup_cons] at hnd
    rw [update_first_by_id]
    by_cases hhd : hd.id = i
    · rw [if_pos hhd]
      have hbhd : b = hd := by
        rcases List.mem_cons.mp hmem with rfl | htl
        · rfl
        · exfalso
          apply hnd.1
          have hbid : hd.id = b.id := by rw [hid, hhd]
          rw [hbid]
          exact List.mem_map.mpr ⟨b, htl, rfl⟩
      subst hbhd
      rw [available_energy_cons, available_energy_cons]
      have hfloor : max 0 (b.current_battery_state_kwh - e) =
          b.current_battery_state_kwh - e := max_eq_right (by linarith)
      simp only [debit_battery, havail, if_true, hfloor]
      ring
    · rw [if_neg hhd]
      have htl : b ∈ tl := by
        rcases List.mem_cons.mp hmem with rfl | htl
        · exact absurd hid hhd
        · exact htl
      rw [available_energy_cons, available_energy_cons,
        ih hnd.2 htl hid havail he0 hle]
      ring

/-- Applying the debit loop over selected entries with duplicate-free ids,
each matching an available fleet battery holding at least its debit,
decreases fleet-wide available energy by exactly the summed debits. -/
theorem apply_debits_energy :
    ∀ (infos : List SelectedBattery) (fleet : List BatterySystem),
      (fleet.map fun b => b.id).Nodup →
      (infos.map fun i => i.battery_id).Nodup →
      (∀ info ∈ infos, ∃ b ∈ fleet, b.id = info.battery_id ∧
        b.is_available = true ∧ 0 ≤ info.power_kw * (1/2) ∧
        info.power_kw * (1/2) ≤ b.current_battery_state_kwh) →
      available_energy (apply_debits infos fleet) =
        available_energy fleet -
          ((infos.map fun i => i.power_kw * (1/2))).sum := by
  intro infos
  induction infos with
  | nil => intro fleet _ _ _; simp [apply_debits]
  | cons info rest ih =>
    intro fleet hnd hind hmatch
    simp only [List.map_cons, List.nodup_cons] at hind
    obtain ⟨b, hb, hbid, hbavail, he0, hle⟩ :=
      hmatch info (List.mem_cons_self _ _)
    rw [apply_debits]
    have hstep := @available_energy_update_first info.battery_id
      (info.power_kw * (1/2)) b fleet hnd hb hbid hbavail he0 hle
    have hids : (((update_first_by_id info.battery_id
        (debit_battery (info.power_kw * (1/2))) fleet)).map fun x => x.id) =
        fleet.map fun x => x.id := map_id_update_first _ _ _
    have hrest : ∀ inf ∈ rest, ∃ b' ∈ update_first_by_id info.battery_id
        (debit_battery (info.power_kw * (1/2))) fleet,
        b'.id = inf.battery_id ∧ b'.is_available = true ∧
        0 ≤ inf.power_kw * (1/2) ∧
        inf.power_kw * (1/2) ≤ b'.current_battery_state_kwh := by
      intro inf hinf
      obtain ⟨b', hb', hbid', hbavail', he0', hle'⟩ :=
        hmatch inf (List.mem_cons_of_mem _ hinf)
      refine ⟨b', mem_update_first_of_ne hb' ?_, hbid', hbavail', he0', hle'⟩
      intro hcontra
      apply hind.1
      rw [← hcontra, hbid']
      exact List.mem_map.mpr ⟨inf, hinf, rfl⟩
    rw [ih _ (by rw [hids]; exact hnd) hind.2 hrest, hstep]
    simp only [List.map_cons, List.sum_cons]
    ring

/-! Helper lemmas for the state-of-charge invariant. -/

/-- Members of an updated fleet are original members or the image of one. -/
theorem mem_update_first {i : Nat} {f : BatterySystem → BatterySystem}
    {x : BatterySystem} :
    ∀ {l : List BatterySystem}, x ∈ update_first_by_id i f l →
      x ∈ l ∨ ∃ b ∈ l, x = f b := by
  intro l
  induction l with
  | nil => intro h; simp [update_first_by_id] at h
  | cons hd tl ih =>
    intro hmem
    rw [update_first_by_id] at hmem
    by_cases hhd : hd.id = i
    · rw [if_pos hhd] at hmem
      rcases List.mem_cons.mp hmem with rfl | htl
      · exact Or.inr ⟨hd, List.mem_cons_self _ _, rfl⟩
      · exact Or.inl (List.mem_cons_of_mem _ htl)
    · rw [if_neg hhd] at hmem
      rcases List.mem_cons.mp hmem with rfl | htl
      · exact Or.inl (List.mem_cons_self _ _)
      · rcases ih htl with h | ⟨b, hb, rfl⟩
        · exact Or.inl (List.mem_cons_of_mem _ h)
        · exact Or.inr ⟨b, List.mem_cons_of_mem _ hb, rfl⟩

/-- A nonnegative debit keeps a battery inside [0, capacity]. -/
theorem debit_battery_socinv {e : ℚ} {b : BatterySystem} (he : 0 ≤ e)
    (h0 : 0 ≤ b.current_battery_state_kwh)
    (hc : b.current_battery_state_kwh ≤ b.battery_capacity_kwh) :
    0 ≤ (debit_battery e b).current_battery_state_kwh ∧
      (debit_battery e b).current_battery_state_kwh ≤
        (debit_battery e b).battery_capacity_kwh := by
  unfold debit_battery
  constructor
  · exact le_max_left 0 _
  · exact max_le (by linarith) (by linarith)

/-- The debit loop preserves the state-of-charge invariant whenever all
selected powers are nonnegative. -/
theorem apply_debits_socinv :
    ∀ (infos : List SelectedBattery) (fleet : List BatterySystem),
      (∀ info ∈ infos, 0 ≤ info.power_kw) → SocInv fleet →
      SocInv (apply_debits infos fleet) := by
  intro infos
  induction infos with
  | nil => intro fleet _ hinv; exact hinv
  | cons info rest ih =>
    intro fleet hpow hinv
    rw [apply_debits]
    refine ih _ (fun i hi => hpow i (List.mem_cons_of_mem _ hi)) ?_
    intro x hx
    rcases mem_update_first hx with hx' | ⟨b, hb, rfl⟩
    · exact hinv x hx'
    · have he : 0 ≤ info.power_kw * (1/2) := by
        have := hpow info (List.mem_cons_self _ _)
        linarith
      exact debit_battery_socinv he (hinv b hb).1 (hinv b hb).2

/-- Every power in a dispatch selection is nonnegative. -/
theorem selection_power_nonneg {fleet : List BatterySystem} {required : ℚ}
    {info : SelectedBattery}
    (h : info ∈ (find_batteries_for_dispatch fleet required).batteries) :
    0 ≤ info.power_kw := by
  obtain ⟨b, _, _, hsoc, rfl⟩ := mem_selection h
  exact available_power_nonneg hsoc

/-- VPPAggregator.dispatch_batteries preserves the state-of-charge
invariant. -/
theorem dispatch_batteries_socinv {fleet : List BatterySystem}
    {required : ℚ} {reason : String} (hinv : SocInv fleet) :
    SocInv (dispatch_batteries fleet required reason).fleet := by
  unfold dispatch_batteries
  exact apply_debits_socinv _ _ (fun i hi => selection_power_nonneg hi) hinv

/-- The hourly physics step preserves the state-of-charge invariant for every
net-energy oracle: the new state is clamped into [0, capacity]. -/
theorem simulate_hour_socinv {net : BatterySystem → ℚ}
    {fleet : List BatterySystem} (hinv : SocInv fleet) :
    SocInv (simulate_hour net fleet) := by
  intro x hx
  unfold simulate_hour at hx
  rw [List.mem_map] at hx
  obtain ⟨b, hb, rfl⟩ := hx
  have hcap : (0:ℚ) ≤ b.battery_capacity_kwh :=
    le_trans (hinv b hb).1 (hinv b hb).2
  by_cases hav : b.is_available = true
  · simp only [hav, if_true]
    refine ⟨le_max_left 0 _, max_le hcap (min_le_left _ _)⟩
  · simp only [hav, if_false]
    exact hinv b hb
  
/-- The FCAS charging loop preserves the state-of-charge invariant whenever
the required power is nonnegative. -/
theorem fcas_charge_loop_socinv {required : ℚ} (hreq : 0 ≤ required) :
    ∀ (l : List BatterySystem) (limit : Nat) (total : ℚ), SocInv l →
      SocInv (fcas_charge_loop required l limit total).1 := by
  intro l
  induction l with
  | nil => intro limit total hinv; exact hinv
  | cons b rest ih =>
    intro limit total hinv
    have hb := hinv b (List.mem_cons_self _ _)
    have hrest : SocInv rest := fun x hx => hinv x (List.mem_cons_of_mem _ hx)
    have hcap : (0:ℚ) ≤ b.battery_capacity_kwh := le_trans hb.1 hb.2
    rw [fcas_charge_loop]
    by_cases helig : fcas_charge_eligible b = true
    · rw [if_pos helig]
      by_cases hgate : 0 < limit ∧ total < required
      · rw [if_pos hgate]
        intro x hx
        rcases List.mem_cons.mp hx with rfl | hx'
        · have hch : (0:ℚ) ≤ min (required / 1000) 2 :=
            le_min (by positivity) (by norm_num)
          refine ⟨le_min hcap (by linarith [hb.1]), min_le_left _ _⟩
        · exact ih (limit - 1) (total + min (required / 1000) 2 * 2) hrest x hx'
      · rw [if_neg hgate]
        exact hinv
    · rw [if_neg helig]
      intro x hx
      rcases List.mem_cons.mp hx with rfl | hx'
      · exact hb
      · exact ih limit total hrest x hx'

/-- simulate_fcas_event preserves the state-of-charge invariant. -/
theorem simulate_fcas_event_socinv {fleet : List BatterySystem} {freq : ℚ}
    (hinv : SocInv fleet) : SocInv (simulate_fcas_event fleet freq).1 := by
  unfold simulate_fcas_event
  by_cases h1 : |50 - freq| < 8/100
  · rw [if_pos h1]
    exact hinv
  · rw [if_neg h1]
    by_cases h2 : 8/100 < 50 - freq
    · rw [if_pos h2]
      show SocInv (dispatch_batteries fleet (|50 - freq| * 1000)
        ("FCAS frequency low")).fleet
      exact dispatch_batteries_socinv hinv
    · rw [if_neg h2]
      show SocInv (fcas_charge_loop (|50 - freq| * 1000) fleet 50 0).1
      exact fcas_charge_loop_socinv (by positivity) _ _ _ hinv

/-! Shared helpers connecting dispatch_batteries to its parts. -/

/-- The mutated fleet returned by dispatch_batteries. -/
theorem dispatch_fleet_eq (fleet : List BatterySystem) (required : ℚ)
    (reason : String) :
    (dispatch_batteries fleet required reason).fleet =
      apply_debits (find_batteries_for_dispatch fleet required).batteries fleet := rfl

/-- The result dict returned by dispatch_batteries is the fleet selection. -/
theorem dispatch_result_eq (fleet : List BatterySystem) (required : ℚ)
    (reason : String) :
    (dispatch_batteries fleet required reason).result =
      find_batteries_for_dispatch fleet required := rfl

/-- For a non-positive requirement the selection is empty, the total is zero
and the request counts as fulfilled (the greedy loop stops before its first
candidate). -/
theorem find_batteries_nonpos {fleet : List BatterySystem} {required : ℚ}
    (h : required ≤ 0) :
    find_batteries_for_dispatch fleet required =
      ⟨0, 0, required, true, []⟩ := by
  simp only [find_batteries_for_dispatch]
  rw [greedySelect_of_le _ h]
  have hr : round2 0 = 0 := by norm_num [round2]
  simp [hr, h]

/-- Halving each selected power halves the summed power. -/
theorem sum_map_half :
    ∀ (l : List SelectedBattery),
      ((l.map fun i => i.power_kw * (1/2))).sum =
        ((l.map fun i => i.power_kw)).sum * (1/2) := by
  intro l
  induction l with
  | nil => simp
  | cons i rest ih =>
    rw [List.map_cons, List.map_cons, List.sum_cons, List.sum_cons, ih]
    ring

/-- The ids of the sorted candidate list are duplicate-free whenever the
fleet ids are. -/
theorem sorted_candidates_ids_nodup {fleet : List BatterySystem}
    (hnd : (fleet.map fun b => b.id).Nodup) :
    (((fleet.filter dispatch_eligible).insertionSort
      (fun a b => b.current_battery_state_kwh ≤ a.current_battery_state_kwh)).map
        fun b => b.id).Nodup := by
  have hsub : List.Sublist ((fleet.filter dispatch_eligible).map fun b => b.id)
      (fleet.map fun b => b.id) :=
    List.Sublist.map _ (List.filter_sublist _)
  have hfil : ((fleet.filter dispatch_eligible).map fun b => b.id).Nodup :=
    List.Nodup.sublist hsub hnd
  exact (((List.perm_insertionSort _ _).map
    fun b : BatterySystem => b.id).nodup_iff).mpr hfil

/-! Claim theorems. -/

/-- C1 counterexample: on the Scenario A fleet (SoC [8, 5, 1], capacity 10,
reserve 2, max rate 5), dispatching 7 kW does not cap the second battery at
the remaining need of 2 kW; the selection totals 9 kW, not 7 kW. -/
theorem dispatch_seven_total_is_nine :
    (find_batteries_for_dispatch fleetA 7).total_power_kw = 9 ∧
    (find_batteries_for_dispatch fleetA 7).total_power_kw ≠ 7 := by
  norm_num [find_batteries_for_dispatch, fleetA, mkTestBattery, greedySelect,
    List.insertionSort, List.orderedInsert, available_power, dispatch_eligible,
    round2]

/-- C1 amended: dispatching 7 kW on the Scenario A fleet selects the SoC-8
battery first at 5 kW, then the SoC-5 battery at its full available power of
4 kW (no capping at the remaining need), totalling 9 kW with the request
fulfilled, and the SoC-1 battery is never selected. -/
theorem dispatch_seven_scenarioA :
    (find_batteries_for_dispatch fleetA 7).batteries =
      [⟨1, "Melbourne", 5⟩, ⟨2, "Melbourne", 4⟩] ∧
    (find_batteries_for_dispatch fleetA 7).total_power_kw = 9 ∧
    (find_batteries_for_dispatch fleetA 7).fulfilled = true ∧
    ∀ info ∈ (find_batteries_for_dispatch fleetA 7).batteries,
      info.battery_id ≠ 3 := by
  norm_num [find_batteries_for_dispatch, fleetA, mkTestBattery, greedySelect,
    List.insertionSort, List.orderedInsert, available_power, dispatch_eligible,
    round2]

/-- C2 counterexample: a battery at 2.5 kWh passes the selection filter
(2.5 > 2) and is selected at power min(2.5 * 0.8, 5) = 2 kW, but the ensuing
30-minute debit of 1 kWh leaves it at 1.5 kWh, strictly below the 2 kWh
reserve — the selection does not protect the post-debit reserve. -/
theorem selection_can_drop_below_reserve_after_debit :
    (dispatch_batteries fleetR 1 ("Grid support")).result.batteries =
      [⟨1, "Melbourne", 2⟩] ∧
    ((dispatch_batteries fleetR 1 ("Grid support")).fleet.map
      fun b => b.current_battery_state_kwh) = [3/2] ∧
    (3/2 : ℚ) < 2 := by
  rw [dispatch_result_eq, dispatch_fleet_eq]
  norm_num [find_batteries_for_dispatch, fleetR, mkTestBattery, greedySelect,
    List.insertionSort, List.orderedInsert, available_power, dispatch_eligible,
    apply_debits, update_first_by_id, debit_battery]

/-- C2 amended: the selection never contains an unavailable resource, and
every selected resource has state of charge strictly above the 2 kWh reserve
at selection time, contributed at its full available power (the post-debit
state may fall below the reserve). -/
theorem selection_only_available_above_reserve (fleet : List BatterySystem)
    (required : ℚ) (info : SelectedBattery)
    (h : info ∈ (find_batteries_for_dispatch fleet required).batteries) :
    ∃ b ∈ fleet, b.id = info.battery_id ∧ b.is_available = true ∧
      2 < b.current_battery_state_kwh ∧ info.power_kw = available_power b := by
  obtain ⟨b, hb, h1, h2, rfl⟩ := mem_selection h
  exact ⟨b, hb, rfl, h1, h2, rfl⟩

/-- C2 witness: instantiating the amended claim on the 2.5 kWh fleet. -/
theorem selection_only_available_above_reserve_witness :
    ∃ b ∈ fleetR, b.id = 1 ∧ b.is_available = true ∧
      2 < b.current_battery_state_kwh ∧ (2:ℚ) = available_power b :=
  selection_only_available_above_reserve fleetR 1 ⟨1, "Melbourne", 2⟩
    (by norm_num [find_batteries_for_dispatch, fleetR, mkTestBattery,
      greedySelect, List.insertionSort, List.orderedInsert, available_power,
      dispatch_eligible])

/-- C6 counterexample: at speed 60 a tick from 17:59:00 crosses the 18:00
hour boundary yet runs zero hourly physics updates when the tick's random
draw is 0.5 (0.5 is not below the 0.12 threshold), while a tick from 10:00:00
crossing no boundary runs one update when the draw is 0.01 — the update is
not tied to hour boundaries at all. -/
theorem hour_boundary_update_not_guaranteed :
    hour_of 64740 = 17 ∧
    hour_of (simulation_tick 60 (1/2) 64740).1 = 18 ∧
    (simulation_tick 60 (1/2) 64740).2 = 0 ∧
    hour_of 36000 = 10 ∧
    hour_of (simulation_tick 60 (1/100) 36000).1 = 10 ∧
    (simulation_tick 60 (1/100) 36000).2 = 1 := by
  norm_num [hour_of, simulation_tick]

/-- C6 amended: each loop tick advances simulated time by 5 * speed seconds
and invokes the hourly fleet physics update at most once, exactly when the
tick's uniform draw is below 0.02 * (speed / 10) — independently of the
simulated clock, so a crossed hour boundary may receive zero updates and a
tick crossing no boundary may receive one. -/
theorem simulate_hour_call_is_probabilistic (speed_multiplier : Nat)
    (draw : ℚ) (t : Nat) :
    (simulation_tick speed_multiplier draw t).1 = t + 5 * speed_multiplier ∧
    ((simulation_tick speed_multiplier draw t).2 = 1 ↔
      draw < (2/100) * ((speed_multiplier : ℚ) / 10)) ∧
    ∀ t' : Nat, (simulation_tick speed_multiplier draw t).2 =
      (simulation_tick speed_multiplier draw t').2 := by
  refine ⟨rfl, ?_, fun t' => rfl⟩
  unfold simulation_tick
  split_ifs with h
  · simp [h]
  · simp [h]

/-- C9: any non-positive power requirement returns the empty selection with
zero total power, reported as fulfilled. -/
theorem nonpositive_request_empty_fulfilled (fleet : List BatterySystem)
    (required : ℚ) (h : required ≤ 0) :
    find_batteries_for_dispatch fleet required =
      ⟨0, 0, required, true, []⟩ :=
  find_batteries_nonpos h

/-- C9 witness: a zero-power request on the Scenario A fleet. -/
theorem nonpositive_request_empty_fulfilled_witness :
    find_batteries_for_dispatch fleetA 0 = ⟨0, 0, 0, true, []⟩ :=
  nonpositive_request_empty_fulfilled fleetA 0 (by norm_num)

/-- C3: the state-of-charge invariant 0 ≤ state ≤ capacity holds after every
sequence of fleet operations — dispatch energy debits, hourly physics steps
under any net-energy oracle, and FCAS events at any frequency — whenever it
holds initially. -/
theorem soc_invariant_preserved (ops : List FleetOp)
    (fleet : List BatterySystem) (hinv : SocInv fleet) :
    SocInv (apply_ops ops fleet) := by
  induction ops generalizing fleet with
  | nil => exact hinv
  | cons op rest ih =>
    have hstep : apply_ops (op :: rest) fleet =
        apply_ops rest (apply_op op fleet) := rfl
    rw [hstep]
    apply ih
    cases op with
    | dispatchReq req reason => exact dispatch_batteries_socinv hinv
    | hourly net => exact simulate_hour_socinv hinv
    | fcas freq => exact simulate_fcas_event_socinv hinv

/-- C3 witness: the invariant holds on the Scenario A fleet and survives a
dispatch, a draining hour and an FCAS event. -/
theorem soc_invariant_preserved_witness :
    SocInv fleetA ∧ SocInv (apply_ops ops0 fleetA) :=
  ⟨by norm_num [SocInv, fleetA, mkTestBattery],
   soc_invariant_preserved ops0 fleetA
     (by norm_num [SocInv, fleetA, mkTestBattery])⟩

/-- C4: a fulfilled dispatch with positive required power decreases the
fleet-wide available energy by exactly the sum of power_kw * 0.5 over the
selected batteries (the floor at 0 in the debit never truncates, because each
selected battery holds at least its debit), and the decrease is strict. Fleet
ids are assumed duplicate-free, as the fleet generator guarantees. -/
theorem fulfilled_dispatch_energy_decrease (fleet : List BatterySystem)
    (required : ℚ) (reason : String)
    (hnd : (fleet.map fun b => b.id).Nodup) (hreq : 0 < required)
    (hful : (dispatch_batteries fleet required reason).result.fulfilled = true) :
    available_energy (dispatch_batteries fleet required reason).fleet =
      available_energy fleet -
        (((dispatch_batteries fleet required reason).result.batteries.map
          fun i => i.power_kw * (1/2))).sum ∧
    available_energy (dispatch_batteries fleet required reason).fleet <
      available_energy fleet := by
  rw [dispatch_result_eq] at hful ⊢
  rw [dispatch_fleet_eq]
  have hsel_nodup : (((find_batteries_for_dispatch fleet required).batteries).map
      fun i => i.battery_id).Nodup :=
    greedySelect_ids_nodup (sorted_candidates_ids_nodup hnd)
  have hmatch : ∀ info ∈ (find_batteries_for_dispatch fleet required).batteries,
      ∃ b ∈ fleet, b.id = info.battery_id ∧ b.is_available = true ∧
        0 ≤ info.power_kw * (1/2) ∧
        info.power_kw * (1/2) ≤ b.current_battery_state_kwh := by
    intro info hinfo
    obtain ⟨b, hb, hav, hsoc, rfl⟩ := mem_selection hinfo
    refine ⟨b, hb, rfl, hav, ?_, debit_le_soc hsoc⟩
    have := available_power_nonneg hsoc
    linarith
  have heq := apply_debits_energy
    (find_batteries_for_dispatch fleet required).batteries fleet
    hnd hsel_nodup hmatch
  refine ⟨heq, ?_⟩
  have hful' : required ≤ (greedySelect required
      ((fleet.filter dispatch_eligible).insertionSort
        (fun a b => b.current_battery_state_kwh ≤ a.current_battery_state_kwh))
      0).2 := by
    have hdec : (find_batteries_for_dispatch fleet required).fulfilled =
        decide (required ≤ (greedySelect required
          ((fleet.filter dispatch_eligible).insertionSort
            (fun a b => b.current_battery_state_kwh ≤ a.current_battery_state_kwh))
          0).2) := rfl
    rw [hdec] at hful
    exact of_decide_eq_true hful
  have htot := @greedySelect_total required
    ((fleet.filter dispatch_eligible).insertionSort
      (fun a b => b.current_battery_state_kwh ≤ a.current_battery_state_kwh)) 0
  have hbatt : (find_batteries_for_dispatch fleet required).batteries =
      (greedySelect required
        ((fleet.filter dispatch_eligible).insertionSort
          (fun a b => b.current_battery_state_kwh ≤ a.current_battery_state_kwh))
        0).1 := rfl
  have hsumpos : 0 <
      ((((find_batteries_for_dispatch fleet required).batteries).map
        fun i => i.power_kw)).sum := by
    rw [hbatt]
    linarith
  rw [heq, sum_map_half]
  linarith

/-- C4 witness: dispatching 1 kW on a single 8 kWh battery (selected at 5 kW,
debited 2.5 kWh): available energy drops from 8 to 5.5. -/
theorem fulfilled_dispatch_energy_decrease_witness :
    available_energy (dispatch_batteries fleetD 1 ("Grid support")).fleet =
      available_energy fleetD -
        (((dispatch_batteries fleetD 1 ("Grid support")).result.batteries.map
          fun i => i.power_kw * (1/2))).sum ∧
    available_energy (dispatch_batteries fleetD 1 ("Grid support")).fleet <
      available_energy fleetD :=
  fulfilled_dispatch_energy_decrease fleetD 1 ("Grid support")
    (by norm_num [fleetD, mkTestBattery])
    (by norm_num)
    (by rw [dispatch_result_eq]
        norm_num [find_batteries_for_dispatch, fleetD, mkTestBattery,
          greedySelect, List.insertionSort, List.orderedInsert,
          available_power, dispatch_eligible])

/-- C7: any frequency inside the 0.08 Hz dead band (50.0 included) yields
action none with zero power and revenue and leaves every battery untouched;
at 49.90 Hz the deviation 0.10 exceeds 0.08 and the discharge path runs,
calling dispatch_batteries with required power |deviation| * 1000 = 100 kW. -/
theorem fcas_dead_band_and_discharge_path :
    (∀ (fleet : List BatterySystem) (f : ℚ), |50 - f| < 8/100 →
      simulate_fcas_event fleet f =
        (fleet, ⟨FCASAction.noAction, f, round3 (50 - f), 0, 0, 0, 0,
          "Frequency within acceptable range"⟩)) ∧
    (∀ fleet : List BatterySystem,
      simulate_fcas_event fleet (499/10) =
        ((dispatch_batteries fleet 100 ("FCAS frequency low")).fleet,
         ⟨FCASAction.discharge, 499/10, 1/10,
          (dispatch_batteries fleet 100 ("FCAS frequency low")).result.total_power_kw,
          (dispatch_batteries fleet 100 ("FCAS frequency low")).result.batteries_dispatched,
          7/2,
          (dispatch_batteries fleet 100 ("FCAS frequency low")).revenue,
          "FCAS response to frequency discharge"⟩)) := by
  constructor
  · intro fleet f hf
    simp only [simulate_fcas_event]
    rw [if_pos hf]
  · intro fleet
    have habs : |(1:ℚ)/10| = 1/10 := abs_of_pos (by norm_num)
    norm_num [simulate_fcas_event, round3, habs]

/-- C7 witness: the dead-band branch instantiated at exactly 50.0 Hz. -/
theorem fcas_dead_band_and_discharge_path_witness :
    simulate_fcas_event fleetD 50 =
      (fleetD, ⟨FCASAction.noAction, 50, round3 (50 - 50), 0, 0, 0, 0,
        "Frequency within acceptable range"⟩) :=
  fcas_dead_band_and_discharge_path.1 fleetD 50 (by norm_num)

/-- C8 counterexample: a dispatch request of −5 kW is not rejected — the call
returns a normal result with fulfilled = true, mutates no battery, and still
records a dispatch event (typed charge) with zero power and revenue. -/
theorem negative_dispatch_not_rejected :
    (dispatch_batteries fleetD (-5) ("Manual dispatch")).result.fulfilled = true ∧
    (dispatch_batteries fleetD (-5) ("Manual dispatch")).fleet = fleetD ∧
    (dispatch_batteries fleetD (-5) ("Manual dispatch")).event =
      ⟨"charge", 0, 0, 30, 0, "Manual dispatch"⟩ := by
  have hsel : find_batteries_for_dispatch fleetD (-5) = ⟨0, 0, -5, true, []⟩ :=
    find_batteries_nonpos (by norm_num)
  simp only [dispatch_batteries, hsel]
  norm_num [apply_debits, calculate_dispatch_revenue, round2]

/-- C8 amended: the dispatch path performs no input validation. A negative
required power is not rejected: the operation returns normally with an empty
selection reported as fulfilled, no battery state changes, and a dispatch
event is still recorded, typed charge because required ≤ 0. (NaN has no
counterpart in the exact rational embedding; the negative case is the
modelled half of the claim.) -/
theorem negative_dispatch_processed_normally (fleet : List BatterySystem)
    (required : ℚ) (reason : String) (h : required < 0) :
    (dispatch_batteries fleet required reason).fleet = fleet ∧
    (dispatch_batteries fleet required reason).result =
      ⟨0, 0, required, true, []⟩ ∧
    (dispatch_batteries fleet required reason).event.event_type = "charge" ∧
    (dispatch_batteries fleet required reason).event.reason = reason := by
  have hsel : find_batteries_for_dispatch fleet required =
      ⟨0, 0, required, true, []⟩ := find_batteries_nonpos (le_of_lt h)
  refine ⟨?_, ?_, ?_, rfl⟩
  · rw [dispatch_fleet_eq, hsel]
    rfl
  · rw [dispatch_result_eq]
    exact hsel
  · show (if 0 < required then ("discharge") else ("charge")) = "charge"
    rw [if_neg (not_lt.mpr (le_of_lt h))]

/-- C8 witness: the amended claim at −3 kW on the 2.5 kWh fleet. -/
theorem negative_dispatch_processed_normally_witness :
    (dispatch_batteries fleetR (-3) ("Manual dispatch")).fleet = fleetR ∧
    (dispatch_batteries fleetR (-3) ("Manual dispatch")).result =
      ⟨0, 0, -3, true, []⟩ ∧
    (dispatch_batteries fleetR (-3) ("Manual dispatch")).event.event_type =
      "charge" ∧
    (dispatch_batteries fleetR (-3) ("Manual dispatch")).event.reason =
      "Manual dispatch" :=
  negative_dispatch_processed_normally fleetR (-3) ("Manual dispatch")
    (by norm_num)

/-- C5: the revenue keying is case-sensitive while the autonomous arbitrage
path passes "Arbitrage: Peak discharge ($0.35/kWh)". That reason contains
neither "arbitrage" (lowercase) nor "FCAS", so the check firing at hour 18
with 105 kW dispatchable settles the dispatch at the default 100 $/MWh rate
— revenue 5.25 — instead of the 250 $/MWh arbitrage rate the claim names. -/
theorem arbitrage_dispatch_settles_at_default_rate :
    strContains arbitrage_reason ("arbitrage") = false ∧
    strContains arbitrage_reason ("FCAS") = false ∧
    rate_per_mwh arbitrage_reason = 100 ∧
    rate_per_mwh arbitrage_reason ≠ 250 ∧
    (check_arbitrage_discharge 18 fleet21).map (fun o => o.event.reason) =
      some arbitrage_reason ∧
    (check_arbitrage_discharge 18 fleet21).map (fun o => o.revenue) =
      some (21/4) := by
  have harb : strContains arbitrage_reason ("arbitrage") = false := by decide
  have hFCAS : strContains arbitrage_reason ("FCAS") = false := by decide
  have hrate : rate_per_mwh arbitrage_reason = 100 := by
    simp [rate_per_mwh, hFCAS, harb]
  have hcheck : check_arbitrage_discharge 18 fleet21 =
      some (dispatch_batteries fleet21 105 arbitrage_reason) := by
    norm_num [check_arbitrage_discharge, get_fleet_status, total_capacity,
      available_energy, dispatchable_power, fleet21, mkTestBattery,
      dispatch_eligible, available_power, round2, round1]
  have htotal : (find_batteries_for_dispatch fleet21 105).total_power_kw =
      105 := by
    norm_num [find_batteries_for_dispatch, fleet21, mkTestBattery,
      greedySelect, List.insertionSort, List.orderedInsert, available_power,
      dispatch_eligible, round2]
  have hrev : (dispatch_batteries fleet21 105 arbitrage_reason).revenue =
      21/4 := by
    have hr : (dispatch_batteries fleet21 105 arbitrage_reason).revenue =
        calculate_dispatch_revenue
          (find_batteries_for_dispatch fleet21 105).total_power_kw
          arbitrage_reason := rfl
    rw [hr, htotal]
    norm_num [calculate_dispatch_revenue, hrate, round2]
  refine ⟨harb, hFCAS, hrate, by rw [hrate]; norm_num, ?_, ?_⟩
  · rw [hcheck]
    rfl
  · rw [hcheck]
    show some (dispatch_batteries fleet21 105 arbitrage_reason).revenue =
      some (21/4)
    rw [hrev]

/-- C10: get_fleet_status divides available energy by total fleet capacity
with no guard. On the empty fleet the divisor is zero and the error branch is
reached; on any nonempty fleet whose capacities come from the generator's
catalogue (10.0, 13.5 or 16.0 kWh) the divisor is positive and the status is
defined. -/
theorem fleet_status_division_guard :
    get_fleet_status [] = none ∧
    ∀ fleet : List BatterySystem, fleet ≠ [] →
      (∀ b ∈ fleet, b.battery_capacity_kwh = 10 ∨
        b.battery_capacity_kwh = 27/2 ∨ b.battery_capacity_kwh = 16) →
      (get_fleet_status fleet).isSome = true := by
  constructor
  · simp [get_fleet_status, total_capacity]
  · intro fleet hne hcaps
    have hpos : 0 < total_capacity fleet := by
      cases fleet with
      | nil => exact absurd rfl hne
      | cons b rest =>
        have hb := hcaps b (List.mem_cons_self _ _)
        have hbpos : 0 < b.battery_capacity_kwh := by
          rcases hb with h | h | h <;> rw [h] <;> norm_num
        have hsum : 0 ≤ ((rest.map fun x => x.battery_capacity_kwh)).sum := by
          apply List.sum_nonneg
          intro x hx
          rw [List.mem_map] at hx
          obtain ⟨b', hb', rfl⟩ := hx
          rcases hcaps b' (List.mem_cons_of_mem _ hb') with h | h | h <;>
            rw [h] <;> norm_num
        unfold total_capacity
        rw [List.map_cons, List.sum_cons]
        linarith
    simp only [get_fleet_status]
    rw [if_neg (ne_of_gt hpos)]
    rfl

/-- C10 witness: the status of a one-battery fleet with a 10 kWh unit is
defined. -/
theorem fleet_status_division_guard_witness :
    (get_fleet_status fleetD).isSome = true :=
  fleet_status_division_guard.2 fleetD (by norm_num [fleetD])
    (by norm_num [fleetD, mkTestBattery])
